import Mathlib

/-!
Shallow embedding of the Dietor diet-tracker core
(`src/diet_tracker/data/tables.py`, `table_helpers.py`, `metrics.py`).

Modelling choices, kept uniform through the file:
* An instant (`datetime`) is an `Int`, counting seconds; a calendar day is
  86400 seconds long, matching Python naive-datetime arithmetic at second
  granularity (the claims never depend on sub-second precision).
  `round_sod` / `round_eod` (`metrics.py`) become flooring to a multiple of
  86400 and that plus 86399.
* A `Cycle` row and the two entry tables (`food`, `exercise`) become Lean
  structures; the two entry tables share one structure `Entry` because the
  source classes `FoodEntry` and `ExerciseEntry` have identical columns —
  the store keeps them in two separate lists, one per table.
* A SQLAlchemy session over the SQLite file becomes a `Store` value; a
  mutating helper returns the result paired with the post-transaction store,
  and a raised exception becomes an `Except` error with the store returned
  unchanged (the enclosing transaction rolls back).
* `scalar_one_or_none` raising `MultipleResultsFound` on two or more rows is
  the `.multipleResults` error; SQLite `IntegrityError` on the partial unique
  index `uq_cycle_one_open` or the check constraint on `maintenance_kcal`
  surfaces as `Cycle.CannotCreate` exactly as `create_cycle` re-raises it.
-/

namespace Dietor

/-- The exception taxonomy of the source: `Cycle.CannotCreate`,
`Cycle.NoOpenCycle`, `EntryNotFound` (tables.py), SQLAlchemy
`MultipleResultsFound` from `scalar_one_or_none`, SQLite `IntegrityError`
from a check constraint, a broken relationship dereference, and Python
`IndexError`. -/
inductive Err where
  | cannotCreate
  | noOpenCycle
  | entryNotFound
  | multipleResults
  | constraintViolation
  | brokenRef
  | indexError
  deriving DecidableEq, Repr

/-- A row of the `cycle` table (tables.py, class `Cycle`): `end_dt = none`
means the cycle is open. -/
structure Cycle where
  id : Int
  start_dt : Int
  end_dt : Option Int
  maintenance_kcal : Int
  daily_deficit_goal : Int
  deriving DecidableEq, Repr

/-- A row of the `food` or `exercise` table (tables.py, classes `FoodEntry`
and `ExerciseEntry`, which have identical columns). -/
structure Entry where
  id : Int
  name : String
  kcal : Int
  dt : Int
  cycle_id : Int
  deriving DecidableEq, Repr

/-- The persistent state of one user's SQLite store: the three tables. -/
structure Store where
  cycles : List Cycle
  food : List Entry
  exercise : List Entry
  deriving DecidableEq, Repr

/-- `round_sod` (metrics.py): zero out the time-of-day fields, i.e. floor to
the start of the calendar day. -/
def round_sod (t : Int) : Int := 86400 * (Int.fdiv t 86400)

/-- `round_eod` (metrics.py): set the time of day to 23:59:59. -/
def round_eod (t : Int) : Int := round_sod t + 86399

/-- `.date()` of a datetime: the calendar-day index. -/
def dateOf (t : Int) : Int := Int.fdiv t 86400

/-- The rows matching `Cycle.end_dt.is_(None)`, in table order. -/
def openCycles (s : Store) : List Cycle :=
  s.cycles.filter (fun c => c.end_dt = none)

/-- `read_current_cycle` (table_helpers.py): select the open cycles and call
`scalar_one_or_none`, which raises `MultipleResultsFound` on two or more
rows. -/
def read_current_cycle (s : Store) : Except Err (Option Cycle) :=
  match openCycles s with
  | [] => .ok none
  | [c] => .ok (some c)
  | _ => .error .multipleResults

/-- The row predicate of `get_cycle_containing_datetime`:
`(Cycle.start_dt <= dt) & ((Cycle.end_dt > dt) | (Cycle.end_dt.is_(None)))`.
This is also the spec's window semantics: a closed cycle occupies
`[start, end)` and an open one `[start, +infinity)`. -/
def windowContains (c : Cycle) (t : Int) : Bool :=
  c.start_dt ≤ t && (match c.end_dt with
    | none => true
    | some e => t < e)

/-- `get_cycle_containing_datetime` (table_helpers.py): filter by
`windowContains`, then `scalar_one_or_none`. -/
def get_cycle_containing_datetime (s : Store) (t : Int) :
    Except Err (Option Cycle) :=
  match s.cycles.filter (fun c => windowContains c t) with
  | [] => .ok none
  | [c] => .ok (some c)
  | _ => .error .multipleResults

/-- `get_food_entries_for_period` / `get_exercise_entries_for_period`
(table_helpers.py): rows with `start_dt <= dt <= end_dt`, `ORDER BY dt`
(modelled as a stable sort on `dt`).  Both helpers run the same query shape
over their table, so one definition serves both, applied to `Store.food` or
`Store.exercise`. -/
def entries_for_period (table : List Entry) (start_dt end_dt : Int) :
    List Entry :=
  List.insertionSort (fun a b => a.dt ≤ b.dt)
    (table.filter (fun e => start_dt ≤ e.dt && e.dt ≤ end_dt))

/-- The dataclass `DailyStats` (metrics.py); `dt` holds the calendar-day
index of the `date` field. -/
structure DailyStats where
  food_entries : List Entry
  exercise_entries : List Entry
  kcal_in : Int
  kcal_out : Int
  maintenance : Int
  deficit : Int
  deficit_goal : Int
  dt : Int
  empty : Bool
  deriving DecidableEq, Repr

/-- The dataclass `PeriodDailyStats` (metrics.py). -/
structure PeriodDailyStats where
  daily_stats : List DailyStats
  kcal_in : Int
  kcal_out : Int
  maintenance : Int
  deficit : Int
  deficit_incl_today : Int
  deficit_goal : Int
  start_dt : Int
  end_dt : Int
  deriving DecidableEq, Repr

/-- `get_daily_stats` (metrics.py).  `food_entries[-1].cycle` dereferences
the relationship, i.e. looks up the cycle row referenced by `cycle_id`; a
dangling foreign key would make that dereference fail (`.brokenRef`), and
`read_current_cycle` can raise `MultipleResultsFound`. -/
def get_daily_stats (s : Store) (t : Int) : Except Err (Option DailyStats) :=
  let day_start := round_sod t
  let day_end := round_eod t
  let food_entries := entries_for_period s.food day_start day_end
  let exercise_entries := entries_for_period s.exercise day_start day_end
  let one_cycle : Except Err (Option Cycle) :=
    match food_entries.getLast? with
    | some fe =>
        match s.cycles.find? (fun c => c.id = fe.cycle_id) with
        | some c => .ok (some c)
        | none => .error .brokenRef
    | none => read_current_cycle s
  match one_cycle with
  | .error e => .error e
  | .ok none => .ok none
  | .ok (some c) =>
      let filtered_food := food_entries.filter (fun x => x.cycle_id = c.id)
      let filtered_exercise :=
        exercise_entries.filter (fun x => x.cycle_id = c.id)
      let kcal_in := (filtered_food.map (fun x => x.kcal)).sum
      let kcal_out := (filtered_exercise.map (fun x => x.kcal)).sum
      if kcal_in = 0 ∧ kcal_out = 0 then
        .ok (some ⟨[], [], 0, 0, 0, 0, 0, dateOf day_start, true⟩)
      else
        .ok (some ⟨filtered_food, filtered_exercise, kcal_in, kcal_out,
          c.maintenance_kcal, c.maintenance_kcal - (kcal_in - kcal_out),
          c.daily_deficit_goal, dateOf day_start, false⟩)

/-- The `while rounded_start <= end_dt` loop of `get_daily_stats_period`:
collect `round_sod(rounded_start)` and step by one day. `cur` is the loop
variable `rounded_start`, already rounded before the first iteration. -/
def enumerateDays (cur end_dt : Int) : List Int :=
  if h : cur ≤ end_dt then round_sod cur :: enumerateDays (cur + 86400) end_dt
  else []
  termination_by (end_dt + 86400 - cur).toNat
  decreasing_by omega

/-- `get_daily_stats_period` (metrics.py).  `nowDate` stands for
`datetime.now().date()`.  `in_between_dates[0]` and `[-1]` raise
`IndexError` on an empty list. -/
def get_daily_stats_period (s : Store) (start_dt end_dt nowDate : Int) :
    Except Err PeriodDailyStats := do
  let in_between_dates := enumerateDays (round_sod start_dt) end_dt
  let daily_stats_w_none ← in_between_dates.mapM (fun x => get_daily_stats s x)
  let daily_stats₀ := daily_stats_w_none.filterMap (fun x => x)
  let daily_stats := daily_stats₀.filter (fun x => !x.empty)
  let total_kcal_in := (daily_stats.map (fun x => x.kcal_in)).sum
  let total_kcal_out := (daily_stats.map (fun x => x.kcal_out)).sum
  let total_maintenance := (daily_stats.map (fun x => x.maintenance)).sum
  let daily_stats_no_today := daily_stats.filter (fun x => x.dt ≠ nowDate)
  let total_deficit := (daily_stats_no_today.map (fun x => x.deficit)).sum
  let total_deficit_incl_today := (daily_stats.map (fun x => x.deficit)).sum
  let total_deficit_goal := (daily_stats.map (fun x => x.deficit_goal)).sum
  match h : in_between_dates with
  | [] => .error .indexError
  | d₀ :: rest =>
      .ok ⟨daily_stats, total_kcal_in, total_kcal_out, total_maintenance,
        total_deficit, total_deficit_incl_today, total_deficit_goal,
        dateOf d₀, dateOf ((d₀ :: rest).getLast (by simp))⟩
/-- The integer primary key SQLite assigns to a freshly inserted row: one
more than the largest id in the table (`max(rowid)+1`). -/
def freshId (ids : List Int) : Int := ids.foldr max 0 + 1

/-- `create_cycle` (table_helpers.py): `session.add` + `flush`; an
`IntegrityError` â the partial unique index `uq_cycle_one_open` rejecting a
second `end_dt IS NULL` row, or the check constraint
`maintenance_kcal > 0` â is re-raised as `Cycle.CannotCreate` and the
transaction rolls back. -/
def create_cycle (s : Store) (cycle : Cycle) : Except Err Cycle × Store :=
  if cycle.end_dt = none ∧ openCycles s ≠ [] then (.error .cannotCreate, s)
  else if cycle.maintenance_kcal ≤ 0 then (.error .cannotCreate, s)
  else (.ok cycle, { s with cycles := s.cycles ++ [cycle] })

/-- The spec interface `open_cycle(maintenance_kcal, deficit_goal, start)`:
the caller (bot.py, `create_cycle_confirm`) builds a `Cycle` with the given
start and maintenance, no end (open), and hands it to `create_cycle`; the
store assigns the id. -/
def open_cycle (s : Store) (maintenance_kcal deficit_goal start_dt : Int) :
    Except Err Cycle × Store :=
  create_cycle s
    ⟨freshId (s.cycles.map (fun c => c.id)), start_dt, none,
      maintenance_kcal, deficit_goal⟩

/-- `close_current_cycle` (table_helpers.py): read the current cycle; if
none, return it unchanged; otherwise set its `end_dt` to `now`
(`datetime.now(timezone.utc)`, passed here as a parameter). -/
def close_current_cycle (s : Store) (now : Int) :
    Except Err (Option Cycle) × Store :=
  match read_current_cycle s with
  | .error e => (.error e, s)
  | .ok none => (.ok none, s)
  | .ok (some current) =>
      (.ok (some { current with end_dt := some now }),
       { s with cycles := s.cycles.map (fun c =>
          if c.id = current.id then { c with end_dt := some now } else c) })

/-- `create_food_entry` / `create_exercise_entry` (table_helpers.py), which
differ only in the table they append to: require an open cycle
(`Cycle.NoOpenCycle` otherwise), append the entry to it; the `flush` raises
`IntegrityError` if the check constraint `kcal >= 0` fails. Returns the
new table; the caller stores it back into `Store.food` or
`Store.exercise`. -/
def create_entry (s : Store) (table : List Entry) (name : String)
    (kcal dt : Int) : Except Err Entry × List Entry :=
  match read_current_cycle s with
  | .error e => (.error e, table)
  | .ok none => (.error .noOpenCycle, table)
  | .ok (some current) =>
      if kcal < 0 then (.error .constraintViolation, table)
      else
        let e : Entry :=
          ⟨freshId (table.map (fun x => x.id)), name, kcal, dt, current.id⟩
        (.ok e, table ++ [e])

/-- `create_food_entry` acting on the whole store. -/
def create_food_entry (s : Store) (name : String) (kcal dt : Int) :
    Except Err Entry × Store :=
  let r := create_entry s s.food name kcal dt
  (r.1, { s with food := r.2 })

/-- `create_exercise_entry` acting on the whole store. -/
def create_exercise_entry (s : Store) (name : String) (kcal dt : Int) :
    Except Err Entry × Store :=
  let r := create_entry s s.exercise name kcal dt
  (r.1, { s with exercise := r.2 })

/-- `remove_food_entry_by_id` / `remove_exercise_entry_by_id`
(table_helpers.py), identical up to the table: `DELETE ... WHERE id = …`,
returning the rowcount. -/
def remove_entry_by_id (table : List Entry) (entry_id : Int) :
    Nat × List Entry :=
  ((table.filter (fun e => e.id = entry_id)).length,
   table.filter (fun e => ¬ e.id = entry_id))

/-- `remove_food_entry_by_id` acting on the whole store. -/
def remove_food_entry_by_id (s : Store) (entry_id : Int) : Nat × Store :=
  let r := remove_entry_by_id s.food entry_id
  (r.1, { s with food := r.2 })

/-- `remove_exercise_entry_by_id` acting on the whole store. -/
def remove_exercise_entry_by_id (s : Store) (entry_id : Int) : Nat × Store :=
  let r := remove_entry_by_id s.exercise entry_id
  (r.1, { s with exercise := r.2 })

/-- `update_food_entry` / `update_exercise_entry` (table_helpers.py),
identical up to the table: select by id with `scalar_one_or_none`
(`MultipleResultsFound` on duplicates), raise `EntryNotFound` when absent,
otherwise overwrite `dt`, `name` and `kcal` of the matched row in place. -/
def update_entry_by_id (table : List Entry) (entry_id : Int) (entry : Entry) :
    Except Err (Entry × List Entry) :=
  match table.filter (fun e => e.id = entry_id) with
  | [] => .error .entryNotFound
  | [old_entry] =>
      .ok ({ old_entry with
              dt := entry.dt
              name := entry.name
              kcal := entry.kcal },
           table.map (fun e =>
            if e.id = entry_id then
              { e with
                  dt := entry.dt
                  name := entry.name
                  kcal := entry.kcal }
            else e))
  | _ => .error .multipleResults

/-- `update_food_entry` acting on the whole store; on an error the
transaction rolls back and the store is unchanged. -/
def update_food_entry (s : Store) (entry_id : Int) (entry : Entry) :
    Except Err Entry × Store :=
  match update_entry_by_id s.food entry_id entry with
  | .error e => (.error e, s)
  | .ok (r, table) => (.ok r, { s with food := table })

/-- `update_exercise_entry` acting on the whole store. -/
def update_exercise_entry (s : Store) (entry_id : Int) (entry : Entry) :
    Except Err Entry × Store :=
  match update_entry_by_id s.exercise entry_id entry with
  | .error e => (.error e, s)
  | .ok (r, table) => (.ok r, { s with exercise := table })

/-- Store states reachable from a fresh (empty) database through the
mutating operations of the core; the aggregator and the other helpers only
read. Each constructor applies one operation with arbitrary arguments and
keeps the store the operation leaves behind (on failure that is the
unchanged store, the transaction having rolled back). -/
inductive Reachable : Store → Prop where
  | init : Reachable ⟨[], [], []⟩
  | stepOpen (s : Store) (m g st : Int) :
      Reachable s → Reachable (open_cycle s m g st).2
  | stepClose (s : Store) (now : Int) :
      Reachable s → Reachable (close_current_cycle s now).2
  | stepAddFood (s : Store) (name : String) (kcal dt : Int) :
      Reachable s → Reachable (create_food_entry s name kcal dt).2
  | stepAddExercise (s : Store) (name : String) (kcal dt : Int) :
      Reachable s → Reachable (create_exercise_entry s name kcal dt).2
  | stepRemoveFood (s : Store) (entry_id : Int) :
      Reachable s → Reachable (remove_food_entry_by_id s entry_id).2
  | stepRemoveExercise (s : Store) (entry_id : Int) :
      Reachable s → Reachable (remove_exercise_entry_by_id s entry_id).2
  | stepUpdateFood (s : Store) (entry_id : Int) (entry : Entry) :
      Reachable s → Reachable (update_food_entry s entry_id entry).2
  | stepUpdateExercise (s : Store) (entry_id : Int) (entry : Entry) :
      Reachable s → Reachable (update_exercise_entry s entry_id entry).2

/-! ## Helper lemmas -/

theorem mem_of_getLast?_eq (l : List Entry) (a : Entry)
    (h : l.getLast? = some a) : a ∈ l := by
  induction l with
  | nil => simp at h
  | cons x xs ih =>
    cases xs with
    | nil => simp at h; simp [h]
    | cons y ys =>
      rw [List.getLast?_cons_cons] at h
      exact List.mem_cons_of_mem x (ih h)

theorem dt_le_getLast_of_sorted (l : List Entry)
    (hs : List.Pairwise (fun a b : Entry => a.dt ≤ b.dt) l)
    (x : Entry) (hx : x ∈ l) (last : Entry) (hl : l.getLast? = some last) :
    x.dt ≤ last.dt := by
  induction l with
  | nil => cases hx
  | cons a as ih =>
    cases as with
    | nil =>
      simp at hl hx
      simp [hx, hl]
    | cons b bs =>
      rw [List.getLast?_cons_cons] at hl
      rcases List.mem_cons.mp hx with hxa | hxtail
      · have hlast_mem : last ∈ b :: bs := mem_of_getLast?_eq _ _ hl
        have hle := (List.pairwise_cons.mp hs).1 last hlast_mem
        rw [hxa]
        exact hle
      · exact ih (List.pairwise_cons.mp hs).2 hxtail hl

theorem eq_singleton_of_mem_of_length_le_one {α : Type} (l : List α) (a : α)
    (ha : a ∈ l) (hlen : l.length ≤ 1) : l = [a] := by
  cases l with
  | nil => cases ha
  | cons x xs =>
    cases xs with
    | nil => simp at ha; simp [ha]
    | cons y ys => simp at hlen

theorem filter_id_length_le_one (l : List Entry) (i : Int)
    (hnd : (l.map Entry.id).Nodup) :
    (l.filter (fun e => e.id = i)).length ≤ 1 := by
  induction l with
  | nil => simp
  | cons a as ih =>
    rw [List.map_cons, List.nodup_cons] at hnd
    by_cases hai : a.id = i
    · have hnil : as.filter (fun e => e.id = i) = [] := by
        rw [List.filter_eq_nil_iff]
        intro e he
        simp only [decide_eq_true_eq]
        intro hei
        exact hnd.1 (hai ▸ hei ▸ List.mem_map_of_mem Entry.id he)
      simp [List.filter_cons, hai, hnil]
    · simpa [List.filter_cons, hai] using ih hnd.2

theorem entries_for_period_sorted (table : List Entry) (a b : Int) :
    List.Pairwise (fun x y : Entry => x.dt ≤ y.dt)
      (entries_for_period table a b) := by
  haveI h₁ : IsTotal Entry (fun x y : Entry => x.dt ≤ y.dt) :=
    ⟨fun x y => le_total x.dt y.dt⟩
  haveI h₂ : IsTrans Entry (fun x y : Entry => x.dt ≤ y.dt) :=
    ⟨fun x y z hxy hyz => le_trans hxy hyz⟩
  exact List.sorted_insertionSort _ _

theorem mem_entries_for_period (table : List Entry) (a b : Int) (x : Entry) :
    x ∈ entries_for_period table a b ↔ x ∈ table ∧ a ≤ x.dt ∧ x.dt ≤ b := by
  unfold entries_for_period
  rw [(List.perm_insertionSort _ _).mem_iff, List.mem_filter]
  simp

theorem read_current_cycle_of_le_one (s : Store)
    (h : (openCycles s).length ≤ 1) :
    read_current_cycle s = .ok (openCycles s).head? := by
  unfold read_current_cycle
  match hoc : openCycles s with
  | [] => rfl
  | [c] => rfl
  | a :: b :: l => rw [hoc] at h; simp at h

/-! ## Claims -/

/-- Claim C1, counterexample: `day_stats` can return a non-empty
`DailyStats` whose food-entry list is NOT sorted ascending by kcal — the
queries order by timestamp, so a 400 kcal entry eaten before a 200 kcal
entry comes first. -/
theorem daily_stats_food_not_sorted_by_kcal :
    get_daily_stats
        ⟨[⟨1, 0, none, 1800, 600⟩],
         [⟨1, "a", 400, 100, 1⟩, ⟨2, "b", 200, 200, 1⟩], []⟩ 0 =
      .ok (some ⟨[⟨1, "a", 400, 100, 1⟩, ⟨2, "b", 200, 200, 1⟩], [],
        600, 0, 1800, 1200, 600, 0, false⟩) ∧
    ¬ List.Sorted (fun a b : Entry => a.kcal ≤ b.kcal)
        [⟨1, "a", 400, 100, 1⟩, ⟨2, "b", 200, 200, 1⟩] := by
  constructor
  · rfl
  · intro hs
    have h := List.rel_of_sorted_cons hs _ (List.mem_singleton_self _)
    simp at h

/-- Claim C1, amended: for every reference instant for which `day_stats`
returns a `DailyStats`, the food-entry list and the exercise-entry list in
the result are each sorted ascending by timestamp (the underlying queries
order by `dt`; nothing in the code orders by kcal). -/
theorem daily_stats_lists_sorted_by_timestamp (s : Store) (t : Int)
    (d : DailyStats) (h : get_daily_stats s t = .ok (some d)) :
    List.Sorted (fun a b : Entry => a.dt ≤ b.dt) d.food_entries ∧
    List.Sorted (fun a b : Entry => a.dt ≤ b.dt) d.exercise_entries := by
  unfold get_daily_stats at h
  simp only [] at h
  split at h
  · exact absurd h (by simp)
  · exact absurd h (by simp)
  · split at h <;> (simp only [Except.ok.injEq, Option.some.injEq] at h; subst h)
    · exact ⟨List.Pairwise.nil, List.Pairwise.nil⟩
    · exact ⟨List.Pairwise.sublist (List.filter_sublist _)
          (entries_for_period_sorted _ _ _),
        List.Pairwise.sublist (List.filter_sublist _)
          (entries_for_period_sorted _ _ _)⟩

theorem daily_stats_lists_sorted_by_timestamp_witness :
    List.Sorted (fun a b : Entry => a.dt ≤ b.dt)
      [(⟨1, "a", 400, 100, 1⟩ : Entry), ⟨2, "b", 200, 200, 1⟩] ∧
    List.Sorted (fun a b : Entry => a.dt ≤ b.dt) ([] : List Entry) :=
  daily_stats_lists_sorted_by_timestamp
    ⟨[⟨1, 0, none, 1800, 600⟩],
     [⟨1, "a", 400, 100, 1⟩, ⟨2, "b", 200, 200, 1⟩], []⟩ 0
    ⟨[⟨1, "a", 400, 100, 1⟩, ⟨2, "b", 200, 200, 1⟩], [],
      600, 0, 1800, 1200, 600, 0, false⟩ (by rfl)

/-- Claim C5: `open_cycle` succeeds if and only if no cycle is currently
open; when an open cycle exists, the attempt fails with `CannotCreate` and
the whole store — the existing open cycle included — is unchanged.  The
hypothesis `0 < m` is the spec precondition `maintenance_kcal > 0`. -/
theorem open_cycle_succeeds_iff_no_open (s : Store) (m g st : Int)
    (hm : 0 < m) :
    ((open_cycle s m g st).1.isOk = true ↔ openCycles s = []) ∧
    (openCycles s ≠ [] →
      open_cycle s m g st = (.error .cannotCreate, s)) := by
  unfold open_cycle create_cycle
  by_cases h₁ : openCycles s = []
  · have hm₂ : ¬ m ≤ 0 := by omega
    simp [h₁, hm₂, Except.isOk, Except.toBool]
  · simp [h₁, Except.isOk, Except.toBool]

theorem open_cycle_succeeds_iff_no_open_witness :
    (0 : Int) < 1800 ∧
    (((open_cycle ⟨[⟨1, 0, none, 2000, 500⟩], [], []⟩ 1800 600 5).1.isOk =
          true ↔
        openCycles ⟨[⟨1, 0, none, 2000, 500⟩], [], []⟩ = []) ∧
      (openCycles ⟨[⟨1, 0, none, 2000, 500⟩], [], []⟩ ≠ [] →
        open_cycle ⟨[⟨1, 0, none, 2000, 500⟩], [], []⟩ 1800 600 5 =
          (.error .cannotCreate, ⟨[⟨1, 0, none, 2000, 500⟩], [], []⟩))) :=
  ⟨by decide, open_cycle_succeeds_iff_no_open _ 1800 600 5 (by decide)⟩

/-- Claim C7: in every `DailyStats` that `day_stats` returns,
`kcal_in` is the sum of the reported food kcal, `kcal_out` the sum of the
reported exercise kcal, and `deficit = maintenance − (kcal_in − kcal_out)`;
and in the end-to-end scenario — open cycle with maintenance 1800 and
deficit goal 600, food entries 200, 400, 400 and exercise entries
200, 300, 400 all within day D — `day_stats(D)` yields kcal_in = 1000,
kcal_out = 900, deficit = 1700. -/
theorem daily_stats_deficit_formula :
    (∀ (s : Store) (t : Int) (d : DailyStats),
      get_daily_stats s t = .ok (some d) →
        d.kcal_in = (d.food_entries.map Entry.kcal).sum ∧
        d.kcal_out = (d.exercise_entries.map Entry.kcal).sum ∧
        d.deficit = d.maintenance - (d.kcal_in - d.kcal_out)) ∧
    get_daily_stats
        ⟨[⟨1, 0, none, 1800, 600⟩],
         [⟨1, "Food", 200, 100, 1⟩, ⟨2, "Food", 400, 300, 1⟩,
          ⟨3, "Food", 400, 400, 1⟩],
         [⟨1, "Exercise", 200, 100, 1⟩, ⟨2, "Exercise", 300, 200, 1⟩,
          ⟨3, "Exercise", 400, 300, 1⟩]⟩ 0 =
      .ok (some ⟨[⟨1, "Food", 200, 100, 1⟩, ⟨2, "Food", 400, 300, 1⟩,
          ⟨3, "Food", 400, 400, 1⟩],
        [⟨1, "Exercise", 200, 100, 1⟩, ⟨2, "Exercise", 300, 200, 1⟩,
         ⟨3, "Exercise", 400, 300, 1⟩],
        1000, 900, 1800, 1700, 600, 0, false⟩) := by
  constructor
  · intro s t d h
    unfold get_daily_stats at h
    simp only [] at h
    split at h
    · exact absurd h (by simp)
    · exact absurd h (by simp)
    · split at h <;>
        (simp only [Except.ok.injEq, Option.some.injEq] at h; subst h) <;>
        exact ⟨rfl, rfl, rfl⟩
  · rfl

theorem daily_stats_deficit_formula_witness :
    (1000 : Int) =
      (([⟨1, "Food", 200, 100, 1⟩, ⟨2, "Food", 400, 300, 1⟩,
          ⟨3, "Food", 400, 400, 1⟩] : List Entry).map Entry.kcal).sum ∧
    (900 : Int) =
      (([⟨1, "Exercise", 200, 100, 1⟩, ⟨2, "Exercise", 300, 200, 1⟩,
          ⟨3, "Exercise", 400, 300, 1⟩] : List Entry).map Entry.kcal).sum ∧
    (1700 : Int) = 1800 - (1000 - 900) :=
  daily_stats_deficit_formula.1
    ⟨[⟨1, 0, none, 1800, 600⟩],
     [⟨1, "Food", 200, 100, 1⟩, ⟨2, "Food", 400, 300, 1⟩,
      ⟨3, "Food", 400, 400, 1⟩],
     [⟨1, "Exercise", 200, 100, 1⟩, ⟨2, "Exercise", 300, 200, 1⟩,
      ⟨3, "Exercise", 400, 300, 1⟩]⟩ 0
    ⟨[⟨1, "Food", 200, 100, 1⟩, ⟨2, "Food", 400, 300, 1⟩,
      ⟨3, "Food", 400, 400, 1⟩],
     [⟨1, "Exercise", 200, 100, 1⟩, ⟨2, "Exercise", 300, 200, 1⟩,
      ⟨3, "Exercise", 400, 300, 1⟩],
     1000, 900, 1800, 1700, 600, 0, false⟩ (by rfl)

/-- Claim C8: for either entry table, `remove_entry_by_id` returns 1 and
removes the entry when an entry with that id exists, returns 0 leaving the
table unchanged when it does not, and a repeat of a successful call returns
0 and changes nothing (idempotent success, absence is not an error).  The
id-uniqueness hypothesis is the primary-key constraint of the tables. -/
theorem remove_entry_by_id_spec (l : List Entry) (i : Int)
    (hnd : (l.map Entry.id).Nodup) :
    ((∃ e ∈ l, e.id = i) →
      (remove_entry_by_id l i).1 = 1 ∧
      remove_entry_by_id (remove_entry_by_id l i).2 i =
        (0, (remove_entry_by_id l i).2)) ∧
    ((∀ e ∈ l, e.id ≠ i) → remove_entry_by_id l i = (0, l)) ∧
    (∀ e, e ∈ (remove_entry_by_id l i).2 ↔ e ∈ l ∧ e.id ≠ i) := by
  refine ⟨?_, ?_, ?_⟩
  · rintro ⟨e, he, hei⟩
    have hmem : e ∈ l.filter (fun x => x.id = i) :=
      List.mem_filter.mpr ⟨he, by simp [hei]⟩
    have hlen : (l.filter (fun x => x.id = i)).length = 1 := by
      have h₁ := filter_id_length_le_one l i hnd
      have h₂ : 0 < (l.filter (fun x => x.id = i)).length :=
        List.length_pos.mpr (List.ne_nil_of_mem hmem)
      omega
    refine ⟨hlen, ?_⟩
    unfold remove_entry_by_id
    rw [List.filter_filter, List.filter_filter]
    simp [Bool.and_not_self]
  · intro hall
    unfold remove_entry_by_id
    have h₁ : l.filter (fun e => e.id = i) = [] :=
      List.filter_eq_nil_iff.mpr (by intro a ha; simpa using hall a ha)
    have h₂ : l.filter (fun e => ¬ e.id = i) = l :=
      List.filter_eq_self.mpr (by intro a ha; simpa using hall a ha)
    rw [h₁, h₂]
    rfl
  · intro e
    unfold remove_entry_by_id
    simp [List.mem_filter]

theorem remove_entry_by_id_spec_witness :
    (([⟨1, "a", 100, 0, 1⟩] : List Entry).map Entry.id).Nodup ∧
    (((∃ e ∈ ([⟨1, "a", 100, 0, 1⟩] : List Entry), e.id = 1) →
        (remove_entry_by_id [⟨1, "a", 100, 0, 1⟩] 1).1 = 1 ∧
        remove_entry_by_id (remove_entry_by_id [⟨1, "a", 100, 0, 1⟩] 1).2 1 =
          (0, (remove_entry_by_id [⟨1, "a", 100, 0, 1⟩] 1).2)) ∧
      ((∀ e ∈ ([⟨1, "a", 100, 0, 1⟩] : List Entry), e.id ≠ 1) →
        remove_entry_by_id [⟨1, "a", 100, 0, 1⟩] 1 =
          (0, [⟨1, "a", 100, 0, 1⟩])) ∧
      (∀ e, e ∈ (remove_entry_by_id [⟨1, "a", 100, 0, 1⟩] 1).2 ↔
        e ∈ ([⟨1, "a", 100, 0, 1⟩] : List Entry) ∧ e.id ≠ 1)) :=
  ⟨by decide, remove_entry_by_id_spec [⟨1, "a", 100, 0, 1⟩] 1 (by decide)⟩

/-- Claim C9: for either entry table, `update_entry_by_id` fails with
`EntryNotFound` when no entry with the id exists, and when one exists it
returns that entry with only `name`, `kcal` and `dt` replaced — its `id`
and its owning `cycle_id` unchanged — and leaves every row's id and cycle
membership in the table unchanged, touching no other row.  The
id-uniqueness hypothesis is the primary-key constraint of the tables. -/
theorem update_entry_by_id_spec (l : List Entry) (i : Int) (e : Entry)
    (hnd : (l.map Entry.id).Nodup) :
    ((∀ x ∈ l, x.id ≠ i) →
      update_entry_by_id l i e = .error .entryNotFound) ∧
    (∀ old ∈ l, old.id = i →
      ∃ l₂,
        update_entry_by_id l i e =
          .ok ({ old with
                  dt := e.dt
                  name := e.name
                  kcal := e.kcal }, l₂) ∧
        l₂.map (fun x => (x.id, x.cycle_id)) =
          l.map (fun x => (x.id, x.cycle_id)) ∧
        (∀ x ∈ l, x.id ≠ i → x ∈ l₂)) := by
  constructor
  · intro hall
    have h₁ : l.filter (fun x => x.id = i) = [] :=
      List.filter_eq_nil_iff.mpr (by intro a ha; simpa using hall a ha)
    unfold update_entry_by_id
    rw [h₁]
  · intro old hold holdid
    have hmem : old ∈ l.filter (fun x => x.id = i) :=
      List.mem_filter.mpr ⟨hold, by simp [holdid]⟩
    have hsingle : l.filter (fun x => x.id = i) = [old] :=
      eq_singleton_of_mem_of_length_le_one _ _ hmem
        (filter_id_length_le_one l i hnd)
    unfold update_entry_by_id
    rw [hsingle]
    refine ⟨_, rfl, ?_, ?_⟩
    · rw [List.map_map]
      apply List.map_congr_left
      intro x hx
      by_cases hxi : x.id = i <;> simp [hxi]
    · intro x hx hxne
      exact List.mem_map.mpr ⟨x, hx, by simp [hxne]⟩

theorem update_entry_by_id_spec_witness :
    (([⟨1, "a", 100, 0, 7⟩] : List Entry).map Entry.id).Nodup ∧
    (((∀ x ∈ ([⟨1, "a", 100, 0, 7⟩] : List Entry), x.id ≠ 1) →
        update_entry_by_id [⟨1, "a", 100, 0, 7⟩] 1 ⟨9, "b", 250, 3, 8⟩ =
          .error .entryNotFound) ∧
      (∀ old ∈ ([⟨1, "a", 100, 0, 7⟩] : List Entry), old.id = 1 →
        ∃ l₂,
          update_entry_by_id [⟨1, "a", 100, 0, 7⟩] 1 ⟨9, "b", 250, 3, 8⟩ =
            .ok ({ old with
                    dt := (3 : Int)
                    name := "b"
                    kcal := (250 : Int) }, l₂) ∧
          l₂.map (fun x => (x.id, x.cycle_id)) =
            ([⟨1, "a", 100, 0, 7⟩] : List Entry).map
              (fun x => (x.id, x.cycle_id)) ∧
          (∀ x ∈ ([⟨1, "a", 100, 0, 7⟩] : List Entry), x.id ≠ 1 →
            x ∈ l₂))) :=
  ⟨by decide,
    update_entry_by_id_spec [⟨1, "a", 100, 0, 7⟩] 1 ⟨9, "b", 250, 3, 8⟩
      (by decide)⟩

/-- Claim C10: nothing stops cycle windows from overlapping — from the
empty store, opening a cycle at instant 0, closing it at instant 10 and
then opening a new cycle with the earlier start 5 succeeds, reaching a
store where both cycles' windows contain instant 7; there
`cycle_containing(7)` raises `MultipleResultsFound` instead of returning a
cycle or none. -/
theorem overlapping_cycles_reachable_and_lookup_raises :
    Reachable ⟨[⟨1, 0, some 10, 2000, 500⟩, ⟨2, 5, none, 2000, 500⟩],
      [], []⟩ ∧
    (open_cycle ⟨[⟨1, 0, some 10, 2000, 500⟩], [], []⟩ 2000 500 5).1.isOk =
      true ∧
    windowContains ⟨1, 0, some 10, 2000, 500⟩ 7 = true ∧
    windowContains ⟨2, 5, none, 2000, 500⟩ 7 = true ∧
    get_cycle_containing_datetime
        ⟨[⟨1, 0, some 10, 2000, 500⟩, ⟨2, 5, none, 2000, 500⟩], [], []⟩ 7 =
      .error .multipleResults := by
  refine ⟨?_, by decide, by decide, by decide, by rfl⟩
  have h₂ := Reachable.stepOpen _ 2000 500 5
    (Reachable.stepClose _ 10 (Reachable.stepOpen _ 2000 500 0 Reachable.init))
  have he : (open_cycle
      (close_current_cycle (open_cycle ⟨[], [], []⟩ 2000 500 0).2 10).2
      2000 500 5).2 =
      ⟨[⟨1, 0, some 10, 2000, 500⟩, ⟨2, 5, none, 2000, 500⟩], [], []⟩ := by
    decide
  exact he ▸ h₂

/-- Claim C4: `cycle_containing(t)` returns the cycle whose window contains
`t` — closed cycles occupy `[start, end)`, open ones `[start, +infinity)` —
and none when no window contains `t` (a gap between cycles or an instant
before all cycles); at a contiguous boundary `c1.end = c2.start = t` the
instant is outside c1's window and, when c2's window is live at `t`, inside
c2's.  The hypothesis says at most one stored cycle's window contains `t`
(the presupposition of "the cycle"; claim C10 covers its failure). -/
theorem cycle_containing_window_semantics (s : Store) (t : Int)
    (h : (s.cycles.filter (fun c => windowContains c t)).length ≤ 1) :
    (∀ c ∈ s.cycles, windowContains c t = true →
      get_cycle_containing_datetime s t = .ok (some c)) ∧
    (∀ c, get_cycle_containing_datetime s t = .ok (some c) →
      c ∈ s.cycles ∧ windowContains c t = true) ∧
    (get_cycle_containing_datetime s t = .ok none ↔
      ∀ c ∈ s.cycles, windowContains c t = false) ∧
    (∀ c₁ : Cycle, c₁.end_dt = some t → windowContains c₁ t = false) ∧
    (∀ c₂ : Cycle, c₂.start_dt = t → c₂.end_dt = none →
      windowContains c₂ t = true) := by
  refine ⟨?_, ?_, ?_, ?_, ?_⟩
  · intro c hc hw
    have hmem : c ∈ s.cycles.filter (fun c => windowContains c t) :=
      List.mem_filter.mpr ⟨hc, hw⟩
    have hsingle := eq_singleton_of_mem_of_length_le_one _ _ hmem h
    unfold get_cycle_containing_datetime
    rw [hsingle]
  · intro c hc
    unfold get_cycle_containing_datetime at hc
    cases hf : s.cycles.filter (fun c => windowContains c t) with
    | nil => rw [hf] at hc; exact absurd hc (by simp)
    | cons c₀ rest =>
      cases rest with
      | nil =>
        rw [hf] at hc
        simp only [Except.ok.injEq, Option.some.injEq] at hc
        subst hc
        have : c₀ ∈ s.cycles.filter (fun c => windowContains c t) := by
          rw [hf]; exact List.mem_singleton_self _
        exact ⟨(List.mem_filter.mp this).1, (List.mem_filter.mp this).2⟩
      | cons c₁ rest₂ => rw [hf] at hc; exact absurd hc (by simp)
  · unfold get_cycle_containing_datetime
    cases hf : s.cycles.filter (fun c => windowContains c t) with
    | nil =>
      simp only [true_iff, reduceCtorEq]
      intro c hc
      by_contra hw
      have hm : c ∈ s.cycles.filter (fun c => windowContains c t) :=
        List.mem_filter.mpr ⟨hc, by simpa using hw⟩
      rw [hf] at hm
      cases hm
    | cons c₀ rest =>
      have hmem : c₀ ∈ s.cycles.filter (fun c => windowContains c t) := by
        rw [hf]; exact List.mem_cons_self _ _
      have hw := List.mem_filter.mp hmem
      constructor
      · intro hcontra
        cases rest with
        | nil => exact absurd hcontra (by simp)
        | cons c₁ rest₂ => exact absurd hcontra (by simp)
      · intro hall
        exact absurd (hall c₀ hw.1) (by simp [hw.2])
  · intro c₁ h₁
    simp [windowContains, h₁]
  · intro c₂ h₁ h₂
    simp [windowContains, h₁, h₂]

theorem cycle_containing_window_semantics_witness :
    ((Store.cycles ⟨[⟨1, 0, some 10, 2000, 500⟩, ⟨2, 10, none, 1900, 400⟩],
        [], []⟩).filter (fun c => windowContains c 10)).length ≤ 1 ∧
    ((∀ c ∈ (Store.cycles ⟨[⟨1, 0, some 10, 2000, 500⟩,
          ⟨2, 10, none, 1900, 400⟩], [], []⟩),
        windowContains c 10 = true →
        get_cycle_containing_datetime
          ⟨[⟨1, 0, some 10, 2000, 500⟩, ⟨2, 10, none, 1900, 400⟩], [], []⟩
          10 = .ok (some c)) ∧
      (∀ c, get_cycle_containing_datetime
          ⟨[⟨1, 0, some 10, 2000, 500⟩, ⟨2, 10, none, 1900, 400⟩], [], []⟩
          10 = .ok (some c) →
        c ∈ (Store.cycles ⟨[⟨1, 0, some 10, 2000, 500⟩,
          ⟨2, 10, none, 1900, 400⟩], [], []⟩) ∧ windowContains c 10 = true) ∧
      (get_cycle_containing_datetime
          ⟨[⟨1, 0, some 10, 2000, 500⟩, ⟨2, 10, none, 1900, 400⟩], [], []⟩
          10 = .ok none ↔
        ∀ c ∈ (Store.cycles ⟨[⟨1, 0, some 10, 2000, 500⟩,
          ⟨2, 10, none, 1900, 400⟩], [], []⟩), windowContains c 10 = false) ∧
      (∀ c₁ : Cycle, c₁.end_dt = some 10 → windowContains c₁ 10 = false) ∧
      (∀ c₂ : Cycle, c₂.start_dt = 10 → c₂.end_dt = none →
        windowContains c₂ 10 = true)) :=
  ⟨by decide,
    cycle_containing_window_semantics
      ⟨[⟨1, 0, some 10, 2000, 500⟩, ⟨2, 10, none, 1900, 400⟩], [], []⟩ 10
      (by decide)⟩

theorem open_cycle_preserves_at_most_one_open (s : Store) (m g st : Int)
    (h : (openCycles s).length ≤ 1) :
    (openCycles (open_cycle s m g st).2).length ≤ 1 := by
  unfold open_cycle create_cycle
  by_cases h₁ : openCycles s = []
  · by_cases h₂ : m ≤ 0
    · simp [h₁, h₂]
    · have h₁' : s.cycles.filter (fun c => c.end_dt = none) = [] := h₁
      simp [h₁, h₂, openCycles, List.filter_append, h₁', List.filter_cons]
  · simpa [h₁] using h

theorem length_filter_open_map_le (l : List Cycle) (f : Cycle → Cycle)
    (hf : ∀ c, (f c).end_dt = none → c.end_dt = none) :
    ((l.map f).filter (fun c => c.end_dt = none)).length ≤
      (l.filter (fun c => c.end_dt = none)).length := by
  induction l with
  | nil => simp
  | cons a as ih =>
    simp only [List.map_cons, List.filter_cons]
    by_cases hfa : (f a).end_dt = none
    · have haa : a.end_dt = none := hf a hfa
      simp [hfa, haa]
      omega
    · by_cases haa : a.end_dt = none <;> simp [hfa, haa] <;> omega

theorem close_current_cycle_preserves_at_most_one_open (s : Store)
    (now : Int) (h : (openCycles s).length ≤ 1) :
    (openCycles (close_current_cycle s now).2).length ≤ 1 := by
  unfold close_current_cycle
  cases hr : read_current_cycle s with
  | error e => simpa using h
  | ok oc =>
    cases oc with
    | none => simpa using h
    | some current =>
      simp only []
      refine le_trans (le_trans (le_of_eq rfl)
        (length_filter_open_map_le s.cycles _ ?_)) h
      intro c hc
      by_cases hid : c.id = current.id
      · simp [hid] at hc
      · simpa [hid] using hc

theorem create_food_entry_keeps_cycles (s : Store) (n : String)
    (k d : Int) : (create_food_entry s n k d).2.cycles = s.cycles := rfl

theorem create_exercise_entry_keeps_cycles (s : Store) (n : String)
    (k d : Int) : (create_exercise_entry s n k d).2.cycles = s.cycles := rfl

theorem remove_food_entry_by_id_keeps_cycles (s : Store) (i : Int) :
    (remove_food_entry_by_id s i).2.cycles = s.cycles := rfl

theorem remove_exercise_entry_by_id_keeps_cycles (s : Store) (i : Int) :
    (remove_exercise_entry_by_id s i).2.cycles = s.cycles := rfl

theorem update_food_entry_keeps_cycles (s : Store) (i : Int) (e : Entry) :
    (update_food_entry s i e).2.cycles = s.cycles := by
  unfold update_food_entry
  cases hr : update_entry_by_id s.food i e with
  | error err => rfl
  | ok p => obtain ⟨r, tb⟩ := p; rfl

theorem update_exercise_entry_keeps_cycles (s : Store) (i : Int)
    (e : Entry) : (update_exercise_entry s i e).2.cycles = s.cycles := by
  unfold update_exercise_entry
  cases hr : update_entry_by_id s.exercise i e with
  | error err => rfl
  | ok p => obtain ⟨r, tb⟩ := p; rfl

/-- Claim C6: in every store state reachable from the fresh database
through the core's operations, at most one cycle has a null end instant,
and `current_open_cycle()` returns (without raising) at most one cycle —
the head of the open-cycle list; the invariant is preserved by every
operation (`open_cycle`, `close_current_cycle`, entry add/update/remove),
each step of `Reachable`, while the aggregator only reads. -/
theorem reachable_at_most_one_open_cycle (s : Store) (h : Reachable s) :
    (openCycles s).length ≤ 1 ∧
    read_current_cycle s = .ok (openCycles s).head? := by
  have main : (openCycles s).length ≤ 1 := by
    induction h with
    | init => simp [openCycles]
    | stepOpen s m g st hr ih =>
      exact open_cycle_preserves_at_most_one_open s m g st ih
    | stepClose s now hr ih =>
      exact close_current_cycle_preserves_at_most_one_open s now ih
    | stepAddFood s n k d hr ih =>
      simpa [openCycles, create_food_entry_keeps_cycles] using ih
    | stepAddExercise s n k d hr ih =>
      simpa [openCycles, create_exercise_entry_keeps_cycles] using ih
    | stepRemoveFood s i hr ih =>
      simpa [openCycles, remove_food_entry_by_id_keeps_cycles] using ih
    | stepRemoveExercise s i hr ih =>
      simpa [openCycles, remove_exercise_entry_by_id_keeps_cycles] using ih
    | stepUpdateFood s i e hr ih =>
      simpa [openCycles, update_food_entry_keeps_cycles] using ih
    | stepUpdateExercise s i e hr ih =>
      simpa [openCycles, update_exercise_entry_keeps_cycles] using ih
  exact ⟨main, read_current_cycle_of_le_one s main⟩

theorem reachable_at_most_one_open_cycle_witness :
    (openCycles (open_cycle
        (open_cycle ⟨[], [], []⟩ 2000 500 0).2 1900 400 3).2).length ≤ 1 ∧
    read_current_cycle (open_cycle
        (open_cycle ⟨[], [], []⟩ 2000 500 0).2 1900 400 3).2 =
      .ok (openCycles (open_cycle
        (open_cycle ⟨[], [], []⟩ 2000 500 0).2 1900 400 3).2).head? :=
  reachable_at_most_one_open_cycle _
    (Reachable.stepOpen _ 1900 400 3
      (Reachable.stepOpen _ 2000 500 0 Reachable.init))

theorem get_daily_stats_isOk (s : Store) (t : Int)
    (hopen : (openCycles s).length ≤ 1)
    (hfk : ∀ e ∈ s.food, ∃ c ∈ s.cycles, c.id = e.cycle_id) :
    (get_daily_stats s t).isOk = true := by
  unfold get_daily_stats
  simp only []
  split
  · rename_i e heq
    exfalso
    cases hF : (entries_for_period s.food (round_sod t) (round_eod t)).getLast? with
    | none =>
      rw [hF] at heq
      dsimp only [] at heq
      rw [read_current_cycle_of_le_one s hopen] at heq
      cases heq
    | some fe =>
      rw [hF] at heq
      dsimp only [] at heq
      have hfe : fe ∈ s.food :=
        ((mem_entries_for_period _ _ _ _).mp (mem_of_getLast?_eq _ _ hF)).1
      obtain ⟨c, hc, hcid⟩ := hfk fe hfe
      cases hfind : s.cycles.find? (fun x => x.id = fe.cycle_id) with
      | none =>
        have hx := List.find?_eq_none.mp hfind c hc
        simp [hcid] at hx
      | some c₂ =>
        rw [hfind] at heq
        cases heq
  · rfl
  · split <;> rfl

theorem mapM_loop_ok {α β : Type} (f : α → Except Err β) (l : List α)
    (h : ∀ x ∈ l, (f x).isOk = true) (acc : List β) :
    ∃ rs, List.mapM.loop f l acc = Except.ok rs := by
  induction l generalizing acc with
  | nil => exact ⟨acc.reverse, rfl⟩
  | cons a as ih =>
    obtain ⟨r, hr⟩ : ∃ r, f a = .ok r := by
      cases hfa : f a with
      | error e =>
        have hh := h a (List.mem_cons_self a as)
        rw [hfa] at hh
        simp [Except.isOk, Except.toBool] at hh
      | ok r => exact ⟨r, rfl⟩
    obtain ⟨rs, hrs⟩ := ih (fun x hx => h x (List.mem_cons_of_mem _ hx)) (r :: acc)
    refine ⟨rs, ?_⟩
    simp [List.mapM.loop, hr, Bind.bind, Except.bind, hrs]

theorem mapM_ok_of_forall {α β : Type} (f : α → Except Err β) (l : List α)
    (h : ∀ x ∈ l, (f x).isOk = true) : ∃ rs, l.mapM f = Except.ok rs :=
  mapM_loop_ok f l h []

theorem enumerateDays_ne_nil (c e : Int) (hle : c ≤ e) :
    enumerateDays c e ≠ [] := by
  unfold enumerateDays
  rw [dif_pos hle]
  exact List.cons_ne_nil _ _

theorem period_stats_ok (s : Store) (start_dt end_dt nowDate : Int)
    (hopen : (openCycles s).length ≤ 1)
    (hfk : ∀ e ∈ s.food, ∃ c ∈ s.cycles, c.id = e.cycle_id)
    (hle : round_sod start_dt ≤ end_dt) :
    (get_daily_stats_period s start_dt end_dt nowDate).isOk = true := by
  unfold get_daily_stats_period
  obtain ⟨rs, hrs⟩ := mapM_ok_of_forall (fun x => get_daily_stats s x)
    (enumerateDays (round_sod start_dt) end_dt)
    (fun x _ => get_daily_stats_isOk s x hopen hfk)
  simp only [Bind.bind, bind, Except.bind, hrs]
  split
  · rename_i heq
    exact absurd heq (enumerateDays_ne_nil _ _ hle)
  · rfl

theorem get_daily_stats_none_iff (s : Store) (t : Int)
    (hopen : (openCycles s).length ≤ 1)
    (hfk : ∀ e ∈ s.food, ∃ c ∈ s.cycles, c.id = e.cycle_id) :
    get_daily_stats s t = .ok none ↔
      entries_for_period s.food (round_sod t) (round_eod t) = [] ∧
      openCycles s = [] := by
  unfold get_daily_stats
  simp only []
  cases hF : (entries_for_period s.food (round_sod t) (round_eod t)).getLast? with
  | none =>
    have hFnil : entries_for_period s.food (round_sod t) (round_eod t) = [] :=
      List.getLast?_eq_none_iff.mp hF
    dsimp only []
    rw [read_current_cycle_of_le_one s hopen]
    cases hoc : openCycles s with
    | nil => simp [hFnil]
    | cons c rest =>
      simp only [List.head?_cons]
      split <;> simp
  | some fe =>
    have hFne : entries_for_period s.food (round_sod t) (round_eod t) ≠ [] := by
      intro h0
      rw [h0] at hF
      cases hF
    have hfe : fe ∈ s.food :=
      ((mem_entries_for_period _ _ _ _).mp (mem_of_getLast?_eq _ _ hF)).1
    obtain ⟨c, hc, hcid⟩ := hfk fe hfe
    cases hfind : s.cycles.find? (fun x => x.id = fe.cycle_id) with
    | none =>
      have hx := List.find?_eq_none.mp hfind c hc
      simp [hcid] at hx
    | some c₂ =>
      split
      · rename_i e heq
        dsimp only [] at heq
        rw [hfind] at heq
        simp at heq
      · rename_i heq
        dsimp only [] at heq
        rw [hfind] at heq
        simp at heq
      · rename_i c₃ heq
        simp only [hFne, false_and, iff_false]
        split <;> simp

theorem get_daily_stats_some_spec (s : Store) (t : Int) (d : DailyStats)
    (h : get_daily_stats s t = .ok (some d)) (hne : d.empty = false) :
    ∃ c ∈ s.cycles,
      (entries_for_period s.food (round_sod t) (round_eod t) = [] →
        openCycles s = [c]) ∧
      (entries_for_period s.food (round_sod t) (round_eod t) ≠ [] →
        ∃ fe ∈ s.food,
          (round_sod t ≤ fe.dt ∧ fe.dt ≤ round_eod t) ∧
          (∀ fe₂ ∈ s.food, round_sod t ≤ fe₂.dt → fe₂.dt ≤ round_eod t →
            fe₂.dt ≤ fe.dt) ∧
          fe.cycle_id = c.id) ∧
      d.food_entries =
        (entries_for_period s.food (round_sod t) (round_eod t)).filter
          (fun x => x.cycle_id = c.id) ∧
      d.exercise_entries =
        (entries_for_period s.exercise (round_sod t) (round_eod t)).filter
          (fun x => x.cycle_id = c.id) ∧
      d.maintenance = c.maintenance_kcal ∧
      d.deficit_goal = c.daily_deficit_goal := by
  unfold get_daily_stats at h
  simp only [] at h
  split at h
  · exact absurd h (by simp)
  · exact absurd h (by simp)
  · rename_i oc c heq
    split at h
    · rename_i hz
      simp only [Except.ok.injEq, Option.some.injEq] at h
      rw [← h] at hne
      simp at hne
    · rename_i hz
      simp only [Except.ok.injEq, Option.some.injEq] at h
      subst h
      cases hF : (entries_for_period s.food (round_sod t) (round_eod t)).getLast? with
      | some fe =>
        rw [hF] at heq
        dsimp only [] at heq
        cases hfind : s.cycles.find? (fun x => x.id = fe.cycle_id) with
        | none => rw [hfind] at heq; cases heq
        | some c₂ =>
          rw [hfind] at heq
          simp only [Except.ok.injEq, Option.some.injEq] at heq
          subst heq
          refine ⟨c₂, List.mem_of_find?_eq_some hfind, ?_, ?_, rfl, rfl, rfl,
            rfl⟩
          · intro h0
            rw [h0] at hF
            cases hF
          · intro _
            have hfeF := mem_of_getLast?_eq _ _ hF
            have hfe := (mem_entries_for_period _ _ _ _).mp hfeF
            refine ⟨fe, hfe.1, ⟨hfe.2.1, hfe.2.2⟩, ?_, ?_⟩
            · intro fe₂ hfe₂ hw1 hw2
              exact dt_le_getLast_of_sorted _ (entries_for_period_sorted _ _ _)
                fe₂ ((mem_entries_for_period _ _ _ _).mpr ⟨hfe₂, hw1, hw2⟩) fe hF
            · have hps := List.find?_some hfind
              simp only [decide_eq_true_eq] at hps
              exact hps.symm
      | none =>
        rw [hF] at heq
        dsimp only [] at heq
        unfold read_current_cycle at heq
        cases hoc : openCycles s with
        | nil => rw [hoc] at heq; cases heq
        | cons c₀ rest =>
          cases rest with
          | cons c₁ rest₂ => rw [hoc] at heq; cases heq
          | nil =>
            rw [hoc] at heq
            dsimp only [] at heq
            simp only [Except.ok.injEq, Option.some.injEq] at heq
            subst heq
            have hmem : c₀ ∈ openCycles s := by
              rw [hoc]
              exact List.mem_singleton_self _
            refine ⟨c₀, (List.mem_filter.mp hmem).1, ?_, ?_, rfl, rfl, rfl,
              rfl⟩
            · intro _
              rfl
            · intro hne2
              exact absurd (List.getLast?_eq_none_iff.mp hF) hne2


/-- Claim C2, counterexample: with one CLOSED cycle owning one exercise
entry inside the day window, no food entries and no open cycle, `day_stats`
returns none although an entry does exist in the day window — refuting
"day_stats returns none exactly when no entries exist in the window and no
open cycle exists". -/
theorem daily_stats_none_despite_entry_in_window :
    get_daily_stats ⟨[⟨1, 0, some 10, 1800, 600⟩], [],
        [⟨1, "run", 300, 5, 1⟩]⟩ 0 = .ok none ∧
    openCycles ⟨[⟨1, 0, some 10, 1800, 600⟩], [], [⟨1, "run", 300, 5, 1⟩]⟩ =
      [] ∧
    (⟨1, "run", 300, 5, 1⟩ : Entry) ∈
      entries_for_period
        (Store.exercise ⟨[⟨1, 0, some 10, 1800, 600⟩], [],
          [⟨1, "run", 300, 5, 1⟩]⟩) (round_sod 0) (round_eod 0) :=
  ⟨by rfl, by rfl, by decide⟩

/-- Claim C2 (amended): `day_stats` attributes the day to exactly one
cycle: if any food entry falls in the day window, the attributed cycle is
that of a chronologically-latest food entry in the window; otherwise it is
the currently-open cycle; window entries belonging to any other cycle are
excluded from the (non-empty) result, which reports the attributed cycle's
maintenance and deficit goal; and `day_stats` returns none exactly when no
FOOD entries exist in the window and no open cycle exists (an
exercise-only window with no open cycle also yields none: the code keys
attribution on food entries alone).  Hypotheses: the storage invariants —
at most one open cycle, and entry foreign keys resolve. -/
theorem daily_stats_cycle_attribution (s : Store) (t : Int)
    (hopen : (openCycles s).length ≤ 1)
    (hfk : ∀ e ∈ s.food, ∃ c ∈ s.cycles, c.id = e.cycle_id) :
    (get_daily_stats s t = .ok none ↔
      entries_for_period s.food (round_sod t) (round_eod t) = [] ∧
      openCycles s = []) ∧
    (∀ d, get_daily_stats s t = .ok (some d) → d.empty = false →
      ∃ c ∈ s.cycles,
        (entries_for_period s.food (round_sod t) (round_eod t) = [] →
          openCycles s = [c]) ∧
        (entries_for_period s.food (round_sod t) (round_eod t) ≠ [] →
          ∃ fe ∈ s.food,
            (round_sod t ≤ fe.dt ∧ fe.dt ≤ round_eod t) ∧
            (∀ fe₂ ∈ s.food, round_sod t ≤ fe₂.dt → fe₂.dt ≤ round_eod t →
              fe₂.dt ≤ fe.dt) ∧
            fe.cycle_id = c.id) ∧
        d.food_entries =
          (entries_for_period s.food (round_sod t) (round_eod t)).filter
            (fun x => x.cycle_id = c.id) ∧
        d.exercise_entries =
          (entries_for_period s.exercise (round_sod t) (round_eod t)).filter
            (fun x => x.cycle_id = c.id) ∧
        d.maintenance = c.maintenance_kcal ∧
        d.deficit_goal = c.daily_deficit_goal) :=
  ⟨get_daily_stats_none_iff s t hopen hfk,
   fun d h hne => get_daily_stats_some_spec s t d h hne⟩

/-- Claim C3, counterexample: `period_stats` does not return a
`PeriodStats` for every pair of instants — when the rounded start lies
after the end (start in day 1, end instant 0) the enumerated day list is
empty and `in_between_dates[0]` raises `IndexError`, even on the empty
store. -/
theorem period_stats_index_error :
    get_daily_stats_period ⟨[], [], []⟩ 86500 0 99 = .error .indexError := by
  have hnil : enumerateDays (round_sod 86500) 0 = [] := by
    unfold enumerateDays
    rw [dif_neg (by decide)]
  unfold get_daily_stats_period
  simp only [hnil, List.mapM_nil, pure_bind]
  split
  · rfl
  · rename_i d₀ rest heq
    rw [hnil] at heq
    cases heq

/-- Claim C3 (amended): for every store satisfying the storage invariants
(at most one open cycle, entry foreign keys resolve), `day_stats`
terminates without raising — it returns a value, and an unresolvable day
(no food entries in the window, no open cycle) silently yields none — and
`period_stats` returns a `PeriodStats` for every pair of start and end
instants whose rounded start is not after the end; on an empty day range
the code instead raises `IndexError` (see the counterexample). -/
theorem aggregator_never_raises (s : Store) (t start_dt end_dt nowDate : Int)
    (hopen : (openCycles s).length ≤ 1)
    (hfk : ∀ e ∈ s.food, ∃ c ∈ s.cycles, c.id = e.cycle_id) :
    (get_daily_stats s t).isOk = true ∧
    (entries_for_period s.food (round_sod t) (round_eod t) = [] ∧
        openCycles s = [] → get_daily_stats s t = .ok none) ∧
    (round_sod start_dt ≤ end_dt →
      (get_daily_stats_period s start_dt end_dt nowDate).isOk = true) :=
  ⟨get_daily_stats_isOk s t hopen hfk,
   fun hu => (get_daily_stats_none_iff s t hopen hfk).mpr hu,
   fun hle => period_stats_ok s start_dt end_dt nowDate hopen hfk hle⟩

theorem aggregator_never_raises_witness :
    (openCycles ⟨[⟨1, 0, none, 1800, 600⟩], [⟨1, "f", 300, 50, 1⟩],
        []⟩).length ≤ 1 ∧
    ((get_daily_stats ⟨[⟨1, 0, none, 1800, 600⟩], [⟨1, "f", 300, 50, 1⟩],
        []⟩ 0).isOk = true ∧
     (entries_for_period
          (Store.food ⟨[⟨1, 0, none, 1800, 600⟩], [⟨1, "f", 300, 50, 1⟩],
            []⟩) (round_sod 0) (round_eod 0) = [] ∧
        openCycles ⟨[⟨1, 0, none, 1800, 600⟩], [⟨1, "f", 300, 50, 1⟩],
          []⟩ = [] →
        get_daily_stats ⟨[⟨1, 0, none, 1800, 600⟩], [⟨1, "f", 300, 50, 1⟩],
          []⟩ 0 = .ok none) ∧
     (round_sod 0 ≤ 86400 →
       (get_daily_stats_period ⟨[⟨1, 0, none, 1800, 600⟩],
          [⟨1, "f", 300, 50, 1⟩], []⟩ 0 86400 99).isOk = true)) :=
  ⟨by decide,
   aggregator_never_raises ⟨[⟨1, 0, none, 1800, 600⟩],
     [⟨1, "f", 300, 50, 1⟩], []⟩ 0 0 86400 99 (by decide) (by decide)⟩

theorem daily_stats_cycle_attribution_witness :
    (openCycles ⟨[⟨1, 0, none, 1800, 600⟩], [⟨1, "f", 300, 50, 1⟩],
        []⟩).length ≤ 1 ∧
    ((get_daily_stats ⟨[⟨1, 0, none, 1800, 600⟩], [⟨1, "f", 300, 50, 1⟩],
          []⟩ 0 = .ok none ↔
        entries_for_period
          (Store.food ⟨[⟨1, 0, none, 1800, 600⟩], [⟨1, "f", 300, 50, 1⟩],
            []⟩) (round_sod 0) (round_eod 0) = [] ∧
        openCycles ⟨[⟨1, 0, none, 1800, 600⟩], [⟨1, "f", 300, 50, 1⟩],
          []⟩ = []) ∧
     (∀ d, get_daily_stats ⟨[⟨1, 0, none, 1800, 600⟩],
          [⟨1, "f", 300, 50, 1⟩], []⟩ 0 = .ok (some d) → d.empty = false →
        ∃ c ∈ (Store.cycles ⟨[⟨1, 0, none, 1800, 600⟩],
          [⟨1, "f", 300, 50, 1⟩], []⟩),
          (entries_for_period
              (Store.food ⟨[⟨1, 0, none, 1800, 600⟩],
                [⟨1, "f", 300, 50, 1⟩], []⟩) (round_sod 0)
              (round_eod 0) = [] →
            openCycles ⟨[⟨1, 0, none, 1800, 600⟩], [⟨1, "f", 300, 50, 1⟩],
              []⟩ = [c]) ∧
          (entries_for_period
              (Store.food ⟨[⟨1, 0, none, 1800, 600⟩],
                [⟨1, "f", 300, 50, 1⟩], []⟩) (round_sod 0)
              (round_eod 0) ≠ [] →
            ∃ fe ∈ (Store.food ⟨[⟨1, 0, none, 1800, 600⟩],
              [⟨1, "f", 300, 50, 1⟩], []⟩),
              (round_sod 0 ≤ fe.dt ∧ fe.dt ≤ round_eod 0) ∧
              (∀ fe₂ ∈ (Store.food ⟨[⟨1, 0, none, 1800, 600⟩],
                  [⟨1, "f", 300, 50, 1⟩], []⟩),
                round_sod 0 ≤ fe₂.dt → fe₂.dt ≤ round_eod 0 →
                  fe₂.dt ≤ fe.dt) ∧
              fe.cycle_id = c.id) ∧
          d.food_entries =
            (entries_for_period
              (Store.food ⟨[⟨1, 0, none, 1800, 600⟩],
                [⟨1, "f", 300, 50, 1⟩], []⟩) (round_sod 0)
              (round_eod 0)).filter (fun x => x.cycle_id = c.id) ∧
          d.exercise_entries =
            (entries_for_period
              (Store.exercise ⟨[⟨1, 0, none, 1800, 600⟩],
                [⟨1, "f", 300, 50, 1⟩], []⟩) (round_sod 0)
              (round_eod 0)).filter (fun x => x.cycle_id = c.id) ∧
          d.maintenance = c.maintenance_kcal ∧
          d.deficit_goal = c.daily_deficit_goal)) :=
  ⟨by decide,
   daily_stats_cycle_attribution ⟨[⟨1, 0, none, 1800, 600⟩],
     [⟨1, "f", 300, 50, 1⟩], []⟩ 0 (by decide) (by decide)⟩

end Dietor
